import Mathlib

/-!
Shallow embedding of the configuration-merging component of
`src/week1_functions.py` (class `ConfigurationParser`, lines 204-319),
together with theorems settling the frozen claims about it.

Modelling conventions:
* Python strings are Lean `String`; character-level helpers work on `List Char`.
* Python dicts are insertion-ordered association lists `List (String × α)`;
  `dinsert` is `d[k] = v` (replace in place, else append), `dictUpdate` is
  `d.update(m)`, `dget?` is lookup of the first binding.
* Python `float` values are modelled as exact rationals `ℚ` (the component
  only parses plain decimal literals); the textual rendering of a float in an
  error message is abstracted by `toString` on `ℚ`.
* The file system is an environment parameter `FS`;
  a readable file carries both its list of text lines and the mapping that
  the stdlib `json.load` call (external to this repository) would produce,
  `none` standing for a decode error.
* Both fatal conditions in the source are `raise ValueError(message)`; the
  error type `PyError` accordingly has the single constructor `valueError`.
-/

namespace WeekOne

/-- Whitespace characters stripped by Python `str.strip()` (ASCII range). -/
def pySpaceChars : List Char := [Char.ofNat 32, Char.ofNat 9, Char.ofNat 10, Char.ofNat 13, Char.ofNat 11, Char.ofNat 12]

def isPySpace (c : Char) : Bool := pySpaceChars.contains c

/-- The two quote characters in `value_str.strip('\x27\x22')`. -/
def quoteChars : List Char := [Char.ofNat 39, Char.ofNat 34]

def isQuoteChar (c : Char) : Bool := quoteChars.contains c

/-- Remove trailing characters satisfying `p`. -/
def dropTrailing (p : Char → Bool) (l : List Char) : List Char := (l.reverse.dropWhile p).reverse

/-- Python `str.strip(chars)`: remove leading and trailing characters in the set. -/
def trimBoth (p : Char → Bool) (l : List Char) : List Char := dropTrailing p (l.dropWhile p)

/-- Python `line.strip()` on the character list. -/
def pyStripL (l : List Char) : List Char := trimBoth isPySpace l

/-- Python `value_str.strip('\x27\x22')`: removes ALL leading and trailing quote characters. -/
def stripQuotesL (l : List Char) : List Char := trimBoth isQuoteChar l

/-- Python `str.lower()` (ASCII behaviour). -/
def pyLowerL (l : List Char) : List Char := l.map Char.toLower

/-- The one-character string containing a single quote. -/
def squoteStr : String := String.mk [Char.ofNat 39]

/-- Numeric value of a list of ASCII digits. -/
def digitsToNat (l : List Char) : Nat := l.foldl (fun a c => 10 * a + (c.toNat - 48)) 0

/-- Python `int(s)` on an already sign-split, whitespace-free body. -/
def parseIntBody (s : List Char) : Option Nat :=
  if s.isEmpty then none
  else if s.all Char.isDigit then some (digitsToNat s)
  else none

/-- Python `int(s)`: optional sign, then decimal digits; `none` models `ValueError`. -/
def parseIntL (l : List Char) : Option Int :=
  match pyStripL l with
  | [] => none
  | c :: rest =>
    if c = Char.ofNat 43 then (parseIntBody rest).map (fun n => (n : Int))
    else if c = Char.ofNat 45 then (parseIntBody rest).map (fun n => -(n : Int))
    else (parseIntBody (c :: rest)).map (fun n => (n : Int))

/-- Split a character list at the first occurrence of `t`; `none` when absent. -/
def splitFirst (t : Char) : List Char → Option (List Char × List Char)
  | [] => none
  | c :: rest =>
    if c = t then some ([], rest)
    else match splitFirst t rest with
      | some (a, b) => some (c :: a, b)
      | none => none

/-- Python `float(s)` on a sign-free body: plain decimal literal, with or
without a decimal point, at least one digit. -/
def parseFloatBody (s : List Char) : Option ℚ :=
  match splitFirst (Char.ofNat 46) s with
  | none => if s.isEmpty then none else if s.all Char.isDigit then some ((digitsToNat s : ℚ)) else none
  | some (a, b) =>
    if (a.isEmpty && b.isEmpty) then none
    else if a.all Char.isDigit && b.all Char.isDigit then
      some ((digitsToNat a : ℚ) + (digitsToNat b : ℚ) / ((10 : ℚ) ^ b.length))
    else none

/-- Python `float(s)`: optional sign then a decimal literal; `none` models
`ValueError` (exponent and infinity forms are outside the formats this
component feeds to it). -/
def parseFloatL (l : List Char) : Option ℚ :=
  match pyStripL l with
  | [] => none
  | c :: rest =>
    if c = Char.ofNat 43 then parseFloatBody rest
    else if c = Char.ofNat 45 then (parseFloatBody rest).map Neg.neg
    else parseFloatBody (c :: rest)

/-- Dynamically-typed configuration value. -/
inductive Value where
  | bool (b : Bool)
  | int (n : Int)
  | float (q : ℚ)
  | str (s : String)
deriving DecidableEq

/-- A Python dict of configuration values, as an insertion-ordered association list. -/
abbrev Config := List (String × Value)

/-- Lookup of the first binding of `k` (Python `d[k]` on a well-formed dict). -/
def dget? {α : Type} : List (String × α) → String → Option α
  | [], _ => none
  | (k0, v0) :: rest, k => if k0 = k then some v0 else dget? rest k

/-- Value left at `k` after all bindings of a list are written in order
(the last binding wins); used to describe `dict.update`. -/
def dgetLast? {α : Type} : List (String × α) → String → Option α
  | [], _ => none
  | (k0, v0) :: rest, k =>
    match dgetLast? rest k with
    | some v => some v
    | none => if k0 = k then some v0 else none

/-- Python `d[k] = v`: replace the value at the first binding of `k` in place,
else append a new binding. -/
def dinsert {α : Type} : List (String × α) → String → α → List (String × α)
  | [], k, v => [(k, v)]
  | (k0, v0) :: rest, k, v =>
    if k0 = k then (k0, v) :: rest else (k0, v0) :: dinsert rest k v

/-- Python `d.update(m)`: write each binding of `m` into `d` in order. -/
def dictUpdate {α : Type} (d m : List (String × α)) : List (String × α) :=
  m.foldl (fun acc kv => dinsert acc kv.1 kv.2) d

/-- The part of `_convert_value` after the quote strip: recognise booleans
case-insensitively, then try `float` when a decimal point is present and
`int` otherwise, falling back to the string itself. -/
def convertStripped (s : List Char) : Value :=
  let low := pyLowerL s
  if low = "true".data ∨ low = "yes".data ∨ low = "on".data then .bool true
  else if low = "false".data ∨ low = "no".data ∨ low = "off".data then .bool false
  else if s.contains (Char.ofNat 46) then
    match parseFloatL s with
    | some q => .float q
    | none => .str (String.mk s)
  else
    match parseIntL s with
    | some n => .int n
    | none => .str (String.mk s)

/-- Translation of `ConfigurationParser._convert_value` working on characters:
`value_str = value_str.strip('\x27\x22')`, then the conversion chain. -/
def convertValueCore (l : List Char) : Value := convertStripped (stripQuotesL l)

/-- `ConfigurationParser._convert_value` (source lines 291-312). -/
def convertValue (s : String) : Value := convertValueCore s.data

/-- One iteration of the line loop in `_load_from_file`: strip the line, skip
blanks and `#` comments, split on the first `=`, strip key and raw value, and
store the coerced value. -/
def parseLine (cfg : Config) (line : String) : Config :=
  let l := pyStripL line.data
  if l.isEmpty then cfg
  else if l.head? = some (Char.ofNat 35) then cfg
  else
    match splitFirst (Char.ofNat 61) l with
    | some (k, v) => dinsert cfg (String.mk (pyStripL k)) (convertValueCore (pyStripL v))
    | none => cfg

/-- The `key = value` branch of `_load_from_file` over the lines of a file. -/
def parseLinesConfig (lines : List String) : Config := lines.foldl parseLine []

/-- Outcome of opening and reading a file. A readable file carries its text
lines and the mapping the stdlib `json.load` would produce on its contents
(`none` = decode error; `json.load` is outside this repository). -/
inductive FileRead where
  | missing
  | ioError
  | ok (lines : List String) (json : Option Config)

/-- The file system, an environment parameter of the embedding. -/
def FS := String → FileRead

/-- `ConfigurationParser._load_from_file` (source lines 265-289): a missing
file, a JSON decode error, and any other read failure are absorbed and the
file contributes the empty mapping. -/
def loadFromFile (fs : FS) (path : String) : Config :=
  match fs path with
  | .missing => []
  | .ioError => []
  | .ok lines json =>
    if ".json".data.isSuffixOf path.data then
      match json with
      | some m => m
      | none => []
    else parseLinesConfig lines

/-- The one runtime exception type both fatal conditions of the source use:
`raise ValueError(message)` (source lines 250 and 319). -/
inductive PyError where
  | valueError (msg : String)
deriving DecidableEq

/-- Python `str(value)` as it appears interpolated in the validation message.
The rendering of a float abstracts from the IEEE repr and prints the rational. -/
def pyRepr : Value → String
  | .bool true => "True"
  | .bool false => "False"
  | .int n => toString n
  | .float q => toString q
  | .str s => s

/-- Message of the `ValueError` raised by `_validate_config` (line 319). -/
def validationMsg (k : String) (v : Value) : String :=
  "Validation failed for config key " ++ squoteStr ++ k ++ squoteStr ++ ": " ++ pyRepr v

/-- Message of the `ValueError` raised for an unsupported source (line 250);
`tn` stands for the interpolation of `type(source)`. -/
def unsupportedMsg (tn : String) : String := "Unsupported config source type: " ++ tn

/-- Rendering of a Python type the way `type(source)` interpolates, for
concrete instances; e.g. `mkTypeName "int"`. -/
def mkTypeName (t : String) : String := "<class " ++ squoteStr ++ t ++ squoteStr ++ ">"

/-- A `parse` source, modelled by the capabilities the dispatch chain probes:
`asDict` is `some m` when `isinstance(source, dict)` holds with items `m`,
`asStr` is `some p` when `isinstance(source, str)` holds with content `p`,
`toDict` is `some m` when `hasattr(source, "to_dict")` holds and the call
`source.to_dict()` returns `m`; `typeName` renders `type(source)`. -/
structure Source where
  asDict : Option Config
  asStr : Option String
  toDict : Option Config
  typeName : String

/-- What one source merges into the result, or the `ValueError` for an
unsupported source: the `if/elif/else` chain of `parse` (lines 240-250). -/
def sourceContribution (fs : FS) (s : Source) : Except PyError Config :=
  match s.asDict with
  | some m => .ok m
  | none =>
    match s.asStr with
    | some p => .ok (loadFromFile fs p)
    | none =>
      match s.toDict with
      | some m => .ok m
      | none => .error (.valueError (unsupportedMsg s.typeName))

/-- The `for source in sources` loop of `parse` (lines 239-250). -/
def applySources (fs : FS) : Config → List Source → Except PyError Config
  | r, [] => .ok r
  | r, s :: ss =>
    match sourceContribution fs s with
    | .ok m => applySources fs (dictUpdate r m) ss
    | .error e => .error e

/-- `self.transformers[key](value)` when a transformer is registered for the
key, else the value unchanged. -/
def transformApply (ts : List (String × (Value → Value))) (k : String) (v : Value) : Value :=
  match dget? ts k with
  | some f => f v
  | none => v

/-- The transformation loop of `parse` (lines 256-258): each entry of the
result is rewritten in place through its registered transformer, if any. -/
def applyTransformers (ts : List (String × (Value → Value))) (r : Config) : Config :=
  r.map (fun kv => (kv.1, transformApply ts kv.1 kv.2))

/-- `ConfigurationParser._validate_config` (lines 314-319): walk the validator
registry in insertion order and raise on the first present key whose
validator rejects. -/
def validateConfig : List (String × (Value → Bool)) → Config → Except PyError Unit
  | [], _ => .ok ()
  | (k, f) :: rest, cfg =>
    match dget? cfg k with
    | some v => if f v then validateConfig rest cfg else .error (.valueError (validationMsg k v))
    | none => validateConfig rest cfg

/-- The merger instance: base mapping (`self.config`), validator registry and
transformer registry, each an insertion-ordered mapping. -/
structure ConfigurationParser where
  config : Config
  validators : List (String × (Value → Bool))
  transformers : List (String × (Value → Value))

/-- `ConfigurationParser.__init__`: stores a copy of the defaults, empty registries. -/
def ConfigurationParser.init (defaults : Config) : ConfigurationParser :=
  ⟨defaults, [], []⟩

/-- `add_validator` (lines 216-218): registers, overwriting any prior
registration for the key in place. -/
def ConfigurationParser.addValidator (p : ConfigurationParser) (k : String) (f : Value → Bool) : ConfigurationParser :=
  { p with validators := dinsert p.validators k f }

/-- `add_transformer` (lines 220-222). -/
def ConfigurationParser.addTransformer (p : ConfigurationParser) (k : String) (f : Value → Value) : ConfigurationParser :=
  { p with transformers := dinsert p.transformers k f }

/-- `ConfigurationParser.parse` (lines 224-263), embedded in state-passing
style: the returned pair is the instance after the call together with the
returned mapping or raised error. The statement `result = self.config.copy()`
starts the result from a fresh dict, so every later mutation targets
`result`; no statement of the method assigns to an attribute of `self`, so
the instance component of the pair is `self` itself. -/
def ConfigurationParser.parse (self : ConfigurationParser) (fs : FS) (sources : List Source) (overrides : Config) : ConfigurationParser × Except PyError Config :=
  (self,
    match applySources fs self.config sources with
    | .error e => .error e
    | .ok r1 =>
      let r3 := applyTransformers self.transformers (dictUpdate r1 overrides)
      match validateConfig self.validators r3 with
      | .error e => .error e
      | .ok _ => .ok r3)

/-- The file system with no readable files, for concrete instances. -/
def fsEmpty : FS := fun _ => .missing

/-- An inline-mapping source. -/
def mkDictSource (m : Config) : Source := ⟨some m, none, none, mkTypeName "dict"⟩

/-- A file-path source. -/
def mkStrSource (p : String) : Source := ⟨none, some p, none, mkTypeName "str"⟩

/-- First entry of the validator registry, in order, whose key is present in
the mapping and whose predicate rejects the value there; used to describe the
fail-fast behaviour of `validateConfig`. -/
def firstFailure : List (String × (Value → Bool)) → Config → Option (String × Value)
  | [], _ => none
  | (k, f) :: rest, cfg =>
    match dget? cfg k with
    | some v => if f v then firstFailure rest cfg else some (k, v)
    | none => firstFailure rest cfg

/-- Modelled from the claim wording, for comparison with the source: strip
exactly one layer of surrounding single or double quotes if present. -/
def stripOneLayer (l : List Char) : List Char :=
  match l with
  | [] => []
  | [c] => [c]
  | c :: rest =>
    match rest.getLast? with
    | some c2 => if c = c2 ∧ isQuoteChar c then rest.dropLast else l
    | none => l

/-- Modelled from the claim wording, for comparison with the source: the
coercion chain with a one-layer quote strip in place of `strip('\x27\x22')`. -/
def convertValueClaimed (l : List Char) : Value := convertStripped (stripOneLayer l)

/-- The one-character string containing a double quote. -/
def dquoteStr : String := String.mk [Char.ofNat 34]

/-- A transformer instance: Python `lambda x: x.lower().strip()` on strings. -/
def hostLowerTrim : Value → Value :=
  fun v => match v with
  | .str s => .str (String.mk (pyStripL (pyLowerL s.data)))
  | v2 => v2

/-- A merger instance whose only registration is the `host` transformer. -/
def pHostT : ConfigurationParser := ⟨[], [], [("host", hostLowerTrim)]⟩

/-- A validator instance: Python `lambda x: isinstance(x, int) and 1 <= x <= 65535`. -/
def portPred : Value → Bool :=
  fun v => match v with
  | .int n => decide (1 ≤ n ∧ n ≤ 65535)
  | _ => false

/-- A merger instance with a port default and the port range validator. -/
def pPort : ConfigurationParser :=
  (ConfigurationParser.init [("port", .int 8000)]).addValidator "port" portPred

/-- A merger instance with no defaults and no registrations. -/
def pPlain : ConfigurationParser := ConfigurationParser.init []

/-- A source with none of the three recognised shapes (e.g. a plain `int`). -/
def badSource : Source := ⟨none, none, none, mkTypeName "int"⟩

end WeekOne

namespace WeekOne

/-! Helper lemmas about the dictionary operations. -/

theorem dget_dinsert {α : Type} (d : List (String × α)) (k : String) (v : α) (k2 : String) :
    dget? (dinsert d k v) k2 = if k = k2 then some v else dget? d k2 := by
  induction d with
  | nil => rfl
  | cons hd tl ih =>
    obtain ⟨k0, v0⟩ := hd
    by_cases h0 : k0 = k
    · subst h0
      simp only [dinsert, if_pos rfl, dget?]
      by_cases h2 : k0 = k2 <;> simp [h2]
    · simp only [dinsert, if_neg h0, dget?, ih]
      by_cases h2 : k0 = k2
      · subst h2
        rw [if_pos rfl, if_neg (fun h => h0 h.symm), if_pos rfl]
      · rw [if_neg h2, if_neg h2]

theorem dget_dictUpdate {α : Type} (d m : List (String × α)) (k : String) :
    dget? (dictUpdate d m) k =
      match dgetLast? m k with
      | some v => some v
      | none => dget? d k := by
  induction m generalizing d with
  | nil => rfl
  | cons hd tl ih =>
    obtain ⟨k0, v0⟩ := hd
    have hstep : dictUpdate d ((k0, v0) :: tl) = dictUpdate (dinsert d k0 v0) tl := rfl
    rw [hstep, ih]
    simp only [dgetLast?]
    cases h : dgetLast? tl k with
    | some v => rfl
    | none =>
      simp only [dget_dinsert]
      by_cases h0 : k0 = k <;> simp [h0]

theorem dget_none_of_not_mem {α : Type} (m : List (String × α)) (k : String)
    (h : k ∉ m.map Prod.fst) : dget? m k = none := by
  induction m with
  | nil => rfl
  | cons hd tl ih =>
    simp only [List.map_cons, List.mem_cons] at h
    push_neg at h
    simp only [dget?, ih h.2]
    rw [if_neg (fun he => h.1 he.symm)]

theorem dgetLast_none_of_not_mem {α : Type} (m : List (String × α)) (k : String)
    (h : k ∉ m.map Prod.fst) : dgetLast? m k = none := by
  induction m with
  | nil => rfl
  | cons hd tl ih =>
    simp only [List.map_cons, List.mem_cons] at h
    push_neg at h
    simp only [dgetLast?, ih h.2]
    rw [if_neg (fun he => h.1 he.symm)]

theorem dgetLast_eq_dget_of_nodup {α : Type} (m : List (String × α)) (k : String)
    (h : (m.map Prod.fst).Nodup) : dgetLast? m k = dget? m k := by
  induction m with
  | nil => rfl
  | cons hd tl ih =>
    simp only [List.map_cons, List.nodup_cons] at h
    obtain ⟨hnm, hnd⟩ := h
    simp only [dgetLast?, dget?, ih hnd]
    by_cases he : hd.1 = k
    · subst he
      rw [dget_none_of_not_mem tl hd.1 hnm]
    · rw [if_neg he, if_neg he]
      cases dget? tl k <;> rfl

theorem dget_applyTransformers (ts : List (String × (Value → Value))) (r : Config) (k : String) :
    dget? (applyTransformers ts r) k = (dget? r k).map (transformApply ts k) := by
  induction r with
  | nil => rfl
  | cons hd tl ih =>
    simp only [applyTransformers, List.map_cons, dget?] at ih ⊢
    by_cases he : hd.1 = k
    · subst he; simp
    · simp only [if_neg he, ih]

/-! Helper lemmas about the source loop. -/

theorem applySources_append (fs : FS) (r : Config) (l1 l2 : List Source) :
    applySources fs r (l1 ++ l2) =
      match applySources fs r l1 with
      | .ok r1 => applySources fs r1 l2
      | .error e => .error e := by
  induction l1 generalizing r with
  | nil => rfl
  | cons s ss ih =>
    simp only [List.cons_append, applySources]
    cases sourceContribution fs s with
    | ok m => exact ih (dictUpdate r m)
    | error e => rfl

theorem sourceContribution_error_shape (fs : FS) (s : Source) (e : PyError)
    (h : sourceContribution fs s = .error e) : e = .valueError (unsupportedMsg s.typeName) := by
  unfold sourceContribution at h
  cases hd : s.asDict with
  | some m => rw [hd] at h; exact absurd h (by simp)
  | none =>
    rw [hd] at h
    cases hs : s.asStr with
    | some p => rw [hs] at h; exact absurd h (by simp)
    | none =>
      rw [hs] at h
      cases ht : s.toDict with
      | some m => rw [ht] at h; exact absurd h (by simp)
      | none =>
        rw [ht] at h
        injection h with h2
        exact h2.symm

theorem supported_contribution (fs : FS) (s : Source)
    (h : s.asDict ≠ none ∨ s.asStr ≠ none ∨ s.toDict ≠ none) :
    ∃ m, sourceContribution fs s = .ok m := by
  unfold sourceContribution
  cases hd : s.asDict with
  | some m => exact ⟨m, rfl⟩
  | none =>
    cases hs : s.asStr with
    | some p => exact ⟨loadFromFile fs p, rfl⟩
    | none =>
      cases ht : s.toDict with
      | some m => exact ⟨m, rfl⟩
      | none =>
        rcases h with h | h | h <;> contradiction

theorem applySources_error_shape (fs : FS) (ss : List Source) :
    ∀ (r : Config) (e : PyError), applySources fs r ss = .error e →
      ∃ tn, e = .valueError (unsupportedMsg tn) := by
  induction ss with
  | nil => intro r e h; exact absurd h (by simp [applySources])
  | cons s tl ih =>
    intro r e h
    simp only [applySources] at h
    cases hc : sourceContribution fs s with
    | ok m => rw [hc] at h; exact ih _ _ h
    | error e2 =>
      rw [hc] at h
      injection h with h2
      exact ⟨s.typeName, h2 ▸ sourceContribution_error_shape fs s e2 hc⟩

theorem applySources_dget_preserved (fs : FS) (k : String) :
    ∀ (ss : List Source) (r0 r : Config),
      (∀ sl ∈ ss, ∀ ml, sourceContribution fs sl = .ok ml → k ∉ ml.map Prod.fst) →
      applySources fs r0 ss = .ok r → dget? r k = dget? r0 k := by
  intro ss
  induction ss with
  | nil =>
    intro r0 r _ h
    injection h with h2
    rw [h2]
  | cons s tl ih =>
    intro r0 r hnk h
    simp only [applySources] at h
    cases hc : sourceContribution fs s with
    | error e => rw [hc] at h; exact absurd h (by simp)
    | ok m =>
      rw [hc] at h
      have hrest := ih (dictUpdate r0 m) r (fun sl hsl => hnk sl (List.mem_cons_of_mem _ hsl)) h
      rw [hrest, dget_dictUpdate]
      rw [dgetLast_none_of_not_mem m k (hnk s (List.mem_cons_self _ _) m hc)]

/-! Helper lemmas about validation. -/

theorem validateConfig_ok_iff (vs : List (String × (Value → Bool))) (cfg : Config) :
    validateConfig vs cfg = .ok () ↔
      ∀ kf ∈ vs, ∀ v, dget? cfg kf.1 = some v → kf.2 v = true := by
  induction vs with
  | nil => simp [validateConfig]
  | cons hd tl ih =>
    obtain ⟨k, f⟩ := hd
    simp only [validateConfig, List.mem_cons]
    cases hg : dget? cfg k with
    | none =>
      dsimp only
      rw [ih]
      constructor
      · intro h kf hkf v hv
        rcases hkf with rfl | hkf
        · rw [hg] at hv; exact absurd hv (by simp)
        · exact h kf hkf v hv
      · intro h kf hkf v hv
        exact h kf (Or.inr hkf) v hv
    | some v0 =>
      dsimp only
      by_cases hf : f v0 = true
      · rw [if_pos hf, ih]
        constructor
        · intro h kf hkf v hv
          rcases hkf with rfl | hkf
          · rw [hg] at hv
            injection hv with hv2
            rw [← hv2]
            exact hf
          · exact h kf hkf v hv
        · intro h kf hkf v hv
          exact h kf (Or.inr hkf) v hv
      · rw [if_neg hf]
        constructor
        · intro h; exact absurd h (by simp)
        · intro h; exact absurd (h (k, f) (Or.inl rfl) v0 hg) hf

theorem validateConfig_error_shape (vs : List (String × (Value → Bool))) (cfg : Config)
    (e : PyError) (h : validateConfig vs cfg = .error e) :
    ∃ k v, e = .valueError (validationMsg k v) := by
  induction vs with
  | nil => exact absurd h (by simp [validateConfig])
  | cons hd tl ih =>
    obtain ⟨k, f⟩ := hd
    simp only [validateConfig] at h
    cases hg : dget? cfg k with
    | none =>
      rw [hg] at h
      exact ih h
    | some v0 =>
      rw [hg] at h
      dsimp only at h
      by_cases hf : f v0 = true
      · rw [if_pos hf] at h; exact ih h
      · rw [if_neg hf] at h
        injection h with h2
        exact ⟨k, v0, h2.symm⟩

theorem validateConfig_first_error (cfg : Config) (pre : List (String × (Value → Bool)))
    (k : String) (f : Value → Bool) (post : List (String × (Value → Bool))) (v : Value)
    (hpass : ∀ kf ∈ pre, ∀ v2, dget? cfg kf.1 = some v2 → kf.2 v2 = true)
    (hv : dget? cfg k = some v) (hrej : f v = false) :
    validateConfig (pre ++ (k, f) :: post) cfg = .error (.valueError (validationMsg k v)) := by
  induction pre with
  | nil =>
    simp only [List.nil_append, validateConfig, hv]
    rw [if_neg (by rw [hrej]; exact Bool.false_ne_true)]
  | cons hd tl ih =>
    obtain ⟨k0, f0⟩ := hd
    simp only [List.cons_append, validateConfig]
    cases hg : dget? cfg k0 with
    | none => exact ih (fun kf hkf => hpass kf (List.mem_cons_of_mem _ hkf))
    | some v2 =>
      dsimp only
      have hp : f0 v2 = true := hpass (k0, f0) (List.mem_cons_self _ _) v2 hg
      rw [if_pos hp]
      exact ih (fun kf hkf => hpass kf (List.mem_cons_of_mem _ hkf))

/-! Helper lemmas about quote stripping and file loading. -/

theorem dropWhile_append_single (p : Char → Bool) (q : Char) (hq : p q = true) (l : List Char) :
    (l ++ [q]).dropWhile p = if (l.dropWhile p).isEmpty then [] else l.dropWhile p ++ [q] := by
  induction l with
  | nil => simp [List.dropWhile, hq]
  | cons c t ih =>
    by_cases hc : p c = true
    · simp only [List.cons_append, List.dropWhile_cons, hc, if_true]
      exact ih
    · simp [List.dropWhile_cons, hc]

theorem dropTrailing_append_q (p : Char → Bool) (q : Char) (hq : p q = true) (l : List Char) :
    dropTrailing p (l ++ [q]) = dropTrailing p l := by
  simp [dropTrailing, List.reverse_append, List.dropWhile_cons, hq]

theorem trimBoth_wrap (p : Char → Bool) (q : Char) (hq : p q = true) (l : List Char) :
    trimBoth p (q :: (l ++ [q])) = trimBoth p l := by
  unfold trimBoth
  rw [List.dropWhile_cons, if_pos hq, dropWhile_append_single p q hq l]
  by_cases he : (l.dropWhile p).isEmpty = true
  · rw [if_pos he]
    cases hd : l.dropWhile p with
    | nil => simp [hd]
    | cons c t => rw [hd] at he; simp at he
  · rw [if_neg he, dropTrailing_append_q p q hq]

theorem convertValue_quote_wrap (q : Char) (hq : isQuoteChar q = true) (s : String) :
    convertValue (String.mk [q] ++ s ++ String.mk [q]) = convertValue s := by
  unfold convertValue convertValueCore
  have hd : (String.mk [q] ++ s ++ String.mk [q]).data = q :: (s.data ++ [q]) := by
    rw [String.data_append, String.data_append]
    rfl
  rw [hd]
  show convertStripped (stripQuotesL (q :: (s.data ++ [q]))) = convertStripped (stripQuotesL s.data)
  unfold stripQuotesL
  rw [trimBoth_wrap isQuoteChar q hq s.data]

theorem loadFromFile_empty (fs : FS) (path : String)
    (h : fs path = .missing ∨ fs path = .ioError ∨
      (".json".data.isSuffixOf path.data = true ∧ ∃ ls, fs path = .ok ls none)) :
    loadFromFile fs path = [] := by
  unfold loadFromFile
  rcases h with h | h | ⟨hj, ls, h⟩
  · rw [h]
  · rw [h]
  · rw [h]
    simp [hj]

/-! Helper lemmas about `parse`. -/

theorem parse_snd (self : ConfigurationParser) (fs : FS) (ss : List Source) (ov : Config) :
    (self.parse fs ss ov).2 =
      match applySources fs self.config ss with
      | .error e => .error e
      | .ok r1 =>
        match validateConfig self.validators (applyTransformers self.transformers (dictUpdate r1 ov)) with
        | .error e => .error e
        | .ok _ => .ok (applyTransformers self.transformers (dictUpdate r1 ov)) := rfl

theorem parse_ok_elim (p : ConfigurationParser) (fs : FS) (ss : List Source) (ov : Config)
    (m : Config) (h : (p.parse fs ss ov).2 = .ok m) :
    ∃ r1, applySources fs p.config ss = .ok r1 ∧
      m = applyTransformers p.transformers (dictUpdate r1 ov) ∧
      validateConfig p.validators m = .ok () := by
  rw [parse_snd] at h
  cases hs : applySources fs p.config ss with
  | error e =>
    rw [hs] at h
    simp at h
  | ok r1 =>
    rw [hs] at h
    dsimp only at h
    cases hv : validateConfig p.validators (applyTransformers p.transformers (dictUpdate r1 ov)) with
    | error e =>
      rw [hv] at h
      simp at h
    | ok u =>
      rw [hv] at h
      dsimp only at h
      injection h with h2
      cases u
      exact ⟨r1, rfl, h2.symm, h2 ▸ hv⟩

/-! The claims. -/

/-- Claim C1, counterexample: with a transformer registered for `host`,
`parse` with `host` in the overrides returns a mapping whose value at `host`
is the transformed value, not `overrides[host]` — so overrides do not bind
their exact value in the returned mapping. -/
theorem claim1_overrides_cex :
    (pHostT.parse fsEmpty [] [("host", Value.str " EXAMPLE.com ")]).2 =
      .ok [("host", Value.str "example.com")]
    ∧ dget? [("host", Value.str "example.com")] "host" ≠ some (Value.str " EXAMPLE.com ") :=
  ⟨rfl, by decide⟩

/-- Claim C1, amended: for every base, inline-mapping sources and overrides,
each key present in the overrides is bound in the returned mapping to the
registered transformer applied to `overrides[key]` (the identity when no
transformer is registered for the key): overrides dominate the merge, and the
transformation stage then applies on top. -/
theorem claim1_overrides_dominate (p : ConfigurationParser) (fs : FS) (ms : List Config)
    (ov : Config) (m : Config)
    (hok : (p.parse fs (ms.map mkDictSource) ov).2 = .ok m)
    (hnd : (ov.map Prod.fst).Nodup)
    (k : String) (v : Value) (hk : dget? ov k = some v) :
    dget? m k = some (transformApply p.transformers k v) := by
  obtain ⟨r1, hsrc, hm, hval⟩ := parse_ok_elim p fs (ms.map mkDictSource) ov m hok
  subst hm
  rw [dget_applyTransformers, dget_dictUpdate, dgetLast_eq_dget_of_nodup ov k hnd, hk]
  rfl

/-- Claim C1, witness: base `debug=false`, one inline source `port=1`,
override `port=70000`, no transformer for `port`: the returned mapping binds
`port` to the override value. -/
theorem claim1_witness :
    dget? [("debug", Value.bool false), ("port", Value.int 70000)] "port" =
      some (transformApply (ConfigurationParser.init [("debug", Value.bool false)]).transformers
        "port" (Value.int 70000)) :=
  claim1_overrides_dominate (ConfigurationParser.init [("debug", Value.bool false)]) fsEmpty
    [[("port", Value.int 1)]] [("port", Value.int 70000)]
    [("debug", Value.bool false), ("port", Value.int 70000)] rfl (by decide)
    "port" (Value.int 70000) rfl

/-- Claim C2: once the sources have merged successfully, `parse` fails with
the validation `ValueError` exactly when some key present in the transformed
result has a registered validator rejecting its value; the error message
carries the key and the offending value, no mapping is returned, and the
error raised for the first rejecting validator in registry insertion order is
unchanged under arbitrary replacement of the validators registered after it
(they are never consulted). -/
theorem claim2_validation (p : ConfigurationParser) (fs : FS) (ss : List Source) (ov : Config)
    (r1 : Config) (hsrc : applySources fs p.config ss = .ok r1) :
    ((∃ kf ∈ p.validators, ∃ v,
        dget? (applyTransformers p.transformers (dictUpdate r1 ov)) kf.1 = some v ∧ kf.2 v = false) ↔
      (∃ k v, (p.parse fs ss ov).2 = .error (.valueError (validationMsg k v))))
    ∧ (∀ pre k f post v,
        p.validators = pre ++ (k, f) :: post →
        (∀ kf ∈ pre, ∀ v2,
          dget? (applyTransformers p.transformers (dictUpdate r1 ov)) kf.1 = some v2 → kf.2 v2 = true) →
        dget? (applyTransformers p.transformers (dictUpdate r1 ov)) k = some v →
        f v = false →
        ((p.parse fs ss ov).2 = .error (.valueError (validationMsg k v))
          ∧ ∀ post2,
            (({ p with validators := pre ++ (k, f) :: post2 }).parse fs ss ov).2 =
              .error (.valueError (validationMsg k v)))) := by
  constructor
  · constructor
    · rintro ⟨kf, hkf, v, hv, hrej⟩
      cases hval : validateConfig p.validators (applyTransformers p.transformers (dictUpdate r1 ov)) with
      | ok u =>
        cases u
        have ht := (validateConfig_ok_iff p.validators
          (applyTransformers p.transformers (dictUpdate r1 ov))).mp hval kf hkf v hv
        rw [ht] at hrej
        exact absurd hrej (by simp)
      | error e =>
        obtain ⟨k2, v2, he⟩ := validateConfig_error_shape p.validators
          (applyTransformers p.transformers (dictUpdate r1 ov)) e hval
        refine ⟨k2, v2, ?_⟩
        rw [parse_snd, hsrc]
        dsimp only
        rw [hval, he]
    · rintro ⟨k, v, hp⟩
      by_contra hno
      have hall : ∀ kf ∈ p.validators, ∀ v2,
          dget? (applyTransformers p.transformers (dictUpdate r1 ov)) kf.1 = some v2 →
            kf.2 v2 = true := by
        intro kf hkf v2 hv2
        cases hb : kf.2 v2 with
        | true => rfl
        | false => exact absurd ⟨kf, hkf, v2, hv2, hb⟩ hno
      have hok := (validateConfig_ok_iff p.validators
        (applyTransformers p.transformers (dictUpdate r1 ov))).mpr hall
      rw [parse_snd, hsrc] at hp
      dsimp only at hp
      rw [hok] at hp
      simp at hp
  · intro pre k f post v heq hpass hv hrej
    have herr : ∀ post2,
        validateConfig (pre ++ (k, f) :: post2)
          (applyTransformers p.transformers (dictUpdate r1 ov)) =
          .error (.valueError (validationMsg k v)) :=
      fun post2 => validateConfig_first_error
        (applyTransformers p.transformers (dictUpdate r1 ov)) pre k f post2 v hpass hv hrej
    constructor
    · rw [parse_snd, hsrc]
      dsimp only
      rw [heq, herr post]
    · intro post2
      have hc : ({ p with validators := pre ++ (k, f) :: post2 } : ConfigurationParser).config =
          p.config := rfl
      rw [parse_snd, hc, hsrc]
      dsimp only
      rw [herr post2]

/-- Claim C2, witness: a `port` range validator together with the override
`port=70000` makes `parse` fail with the validation error naming `port` and
`70000`. -/
theorem claim2_witness :
    (pPort.parse fsEmpty [] [("port", Value.int 70000)]).2 =
      .error (.valueError (validationMsg "port" (Value.int 70000))) :=
  ((claim2_validation pPort fsEmpty [] [("port", Value.int 70000)] pPort.config rfl).2
    [] "port" portPred [] (Value.int 70000) rfl
    (fun kf hkf => absurd hkf (List.not_mem_nil kf)) rfl rfl).1

/-- Claim C3, counterexample: on the raw value written `''hello''` the code
strips BOTH quote layers (Python `strip` removes all leading and trailing
characters of the set), while the claimed one-layer strip would leave
`'hello'`; so the coercion does not strip exactly one layer. -/
theorem claim3_strip_cex :
    convertValue (squoteStr ++ squoteStr ++ "hello" ++ squoteStr ++ squoteStr) = Value.str "hello"
    ∧ convertValueClaimed (squoteStr ++ squoteStr ++ "hello" ++ squoteStr ++ squoteStr).data =
        Value.str (squoteStr ++ "hello" ++ squoteStr)
    ∧ Value.str "hello" ≠ Value.str (squoteStr ++ "hello" ++ squoteStr) :=
  ⟨rfl, rfl, by decide⟩

/-- Claim C3, amended: the coercion first strips ALL leading and trailing
single- or double-quote characters (so wrapping a raw value in a further
layer of quotes never changes the result), then maps case-insensitive
true/yes/on and false/no/off to booleans, then attempts a float parse when
the stripped string contains a decimal point and an integer parse when it
does not, and otherwise returns the quote-stripped string; in particular
`42`, `3.14`, `true`, `hello` coerce to the integer 42, the float 3.14, the
boolean true and the string `hello`. -/
theorem claim3_coercion :
    (∀ s : String, convertValue (squoteStr ++ s ++ squoteStr) = convertValue s)
    ∧ (∀ s : String, convertValue (dquoteStr ++ s ++ dquoteStr) = convertValue s)
    ∧ convertValue "42" = Value.int 42
    ∧ convertValue "3.14" = Value.float (157 / 50)
    ∧ convertValue "true" = Value.bool true
    ∧ convertValue "hello" = Value.str "hello"
    ∧ convertValue "TRUE" = Value.bool true
    ∧ convertValue "Yes" = Value.bool true
    ∧ convertValue "on" = Value.bool true
    ∧ convertValue "False" = Value.bool false
    ∧ convertValue "no" = Value.bool false
    ∧ convertValue "OFF" = Value.bool false
    ∧ convertValue "-7" = Value.int (-7)
    ∧ convertValue "1.2.3" = Value.str "1.2.3"
    ∧ convertValue "12abc" = Value.str "12abc" := by
  refine ⟨fun s => convertValue_quote_wrap (Char.ofNat 39) rfl s,
    fun s => convertValue_quote_wrap (Char.ofNat 34) rfl s,
    rfl, ?_, rfl, rfl, rfl, rfl, rfl, rfl, rfl, rfl, rfl, rfl, rfl⟩
  have h : (157 / 50 : ℚ) =
      ((digitsToNat ['3'] : ℚ) + (digitsToNat ['1', '4'] : ℚ) /
        ((10 : ℚ) ^ (['1', '4'] : List Char).length)) := by
    have e1 : digitsToNat ['3'] = 3 := rfl
    have e2 : digitsToNat ['1', '4'] = 14 := rfl
    rw [e1, e2]
    norm_num
  rw [h]
  rfl

/-- Claim C4: a file-path source whose file is missing, hits an I/O failure,
or is a `.json` file that fails to decode contributes nothing: `parse` with
that source, wherever it sits in the source list, is identical to the same
call with the source omitted, and in particular no error is raised for it. -/
theorem claim4_file_errors (p : ConfigurationParser) (fs : FS) (ss1 ss2 : List Source)
    (ov : Config) (path : String) (td : Option Config) (tn : String)
    (hfile : fs path = .missing ∨ fs path = .ioError ∨
      (".json".data.isSuffixOf path.data = true ∧ ∃ ls, fs path = .ok ls none)) :
    p.parse fs (ss1 ++ (⟨none, some path, td, tn⟩ : Source) :: ss2) ov =
      p.parse fs (ss1 ++ ss2) ov := by
  have hload : loadFromFile fs path = [] := loadFromFile_empty fs path hfile
  have happ : ∀ r, applySources fs r (ss1 ++ (⟨none, some path, td, tn⟩ : Source) :: ss2) =
      applySources fs r (ss1 ++ ss2) := by
    intro r
    rw [applySources_append, applySources_append]
    cases applySources fs r ss1 with
    | error e => rfl
    | ok r1 =>
      dsimp only
      show applySources fs (dictUpdate r1 (loadFromFile fs path)) ss2 = applySources fs r1 ss2
      rw [hload]
      rfl
  unfold ConfigurationParser.parse
  rw [happ p.config]

/-- Claim C4, witness: a missing file path as the only source gives the same
call result as no source at all. -/
theorem claim4_witness :
    pPlain.parse fsEmpty [mkStrSource "config.txt"] [] = pPlain.parse fsEmpty [] [] :=
  claim4_file_errors pPlain fsEmpty [] [] [] "config.txt" none (mkTypeName "str") (Or.inl rfl)

/-- Claim C5: when the source list contains a value with none of the three
recognised shapes (inline mapping, string, `to_dict` capability) — all
earlier sources being of a recognised shape — `parse` fails with the
unsupported-source `ValueError` naming the runtime type of that value, and no
mapping is returned. -/
theorem claim5_unsupported (p : ConfigurationParser) (fs : FS) (pre post : List Source)
    (ov : Config) (s : Source)
    (hd : s.asDict = none) (hs : s.asStr = none) (ht : s.toDict = none)
    (hpre : ∀ s2 ∈ pre, s2.asDict ≠ none ∨ s2.asStr ≠ none ∨ s2.toDict ≠ none) :
    (p.parse fs (pre ++ s :: post) ov).2 = .error (.valueError (unsupportedMsg s.typeName)) := by
  have hbad : sourceContribution fs s = .error (.valueError (unsupportedMsg s.typeName)) := by
    unfold sourceContribution
    rw [hd, hs, ht]
  have happ : ∀ (pr : List Source),
      (∀ s2 ∈ pr, s2.asDict ≠ none ∨ s2.asStr ≠ none ∨ s2.toDict ≠ none) →
      ∀ r, applySources fs r (pr ++ s :: post) =
        .error (.valueError (unsupportedMsg s.typeName)) := by
    intro pr
    induction pr with
    | nil =>
      intro _ r
      show (match sourceContribution fs s with
        | .ok m => applySources fs (dictUpdate r m) post
        | .error e => .error e) = _
      rw [hbad]
    | cons s2 tl ih =>
      intro hpr r
      obtain ⟨m, hm⟩ := supported_contribution fs s2 (hpr s2 (List.mem_cons_self _ _))
      show (match sourceContribution fs s2 with
        | .ok m2 => applySources fs (dictUpdate r m2) (tl ++ s :: post)
        | .error e => .error e) = _
      rw [hm]
      exact ih (fun s3 h3 => hpr s3 (List.mem_cons_of_mem _ h3)) (dictUpdate r m)
  rw [parse_snd, happ pre hpre p.config]

/-- Claim C5, witness: a source with no recognised shape (modelling a plain
`int`) makes `parse` fail with the unsupported-source error naming its type. -/
theorem claim5_witness :
    (pPlain.parse fsEmpty [badSource] []).2 =
      .error (.valueError (unsupportedMsg (mkTypeName "int"))) :=
  claim5_unsupported pPlain fsEmpty [] [] [] badSource rfl rfl rfl
    (fun s2 h2 => absurd h2 (List.not_mem_nil s2))

/-- Claim C6: `parse`, embedded in state-passing style, leaves the instance —
base mapping and both registries — unchanged whether it returns a mapping or
an error, so a second call on the post-call instance behaves exactly as a
call on the original instance. -/
theorem claim6_no_mutation (p : ConfigurationParser) (fs1 fs2 : FS) (ss1 ss2 : List Source)
    (ov1 ov2 : Config) :
    (p.parse fs1 ss1 ov1).1 = p
    ∧ ((p.parse fs1 ss1 ov1).1).parse fs2 ss2 ov2 = p.parse fs2 ss2 ov2 :=
  ⟨rfl, rfl⟩

/-- Claim C7: when `parse` returns a mapping, every key of the merged
(sources then overrides) mapping is bound in the result to its registered
transformer applied to the merged value, and to the merged value itself when
no transformer is registered for it. -/
theorem claim7_transformers (p : ConfigurationParser) (fs : FS) (ss : List Source) (ov : Config)
    (r1 m : Config)
    (hsrc : applySources fs p.config ss = .ok r1)
    (hok : (p.parse fs ss ov).2 = .ok m)
    (k : String) (v : Value) (hkv : dget? (dictUpdate r1 ov) k = some v) :
    dget? m k = some (transformApply p.transformers k v)
    ∧ (dget? p.transformers k = none → dget? m k = some v) := by
  obtain ⟨r1b, hsrc2, hm, hval⟩ := parse_ok_elim p fs ss ov m hok
  rw [hsrc] at hsrc2
  injection hsrc2 with he
  subst he
  subst hm
  constructor
  · rw [dget_applyTransformers, hkv]
    rfl
  · intro hnone
    rw [dget_applyTransformers, hkv]
    simp [transformApply, hnone]

/-- Claim C7, witness: the `host` lowercase-and-trim transformer turns the
merged value `" EXAMPLE.com "` into `"example.com"` in the returned mapping. -/
theorem claim7_witness :
    dget? [("host", Value.str "example.com")] "host" =
      some (transformApply pHostT.transformers "host" (Value.str " EXAMPLE.com ")) :=
  (claim7_transformers pHostT fsEmpty [] [("host", Value.str " EXAMPLE.com ")] []
    [("host", Value.str "example.com")] rfl rfl "host" (Value.str " EXAMPLE.com ") rfl).1

/-- Claim C8, counterexample: with the three inline sources `k=1`, `k=2`,
`k=3` applied in order, the key `k` appears in both the first source (i = 0)
and the second (j = 1) with i < j, yet the pre-override merged value of `k`
is 3, not the second source's 2 — the claim as universally quantified over
pairs i < j fails whenever a later source also binds the key. -/
theorem claim8_later_wins_cex :
    applySources fsEmpty []
        [mkDictSource [("k", Value.int 1)], mkDictSource [("k", Value.int 2)],
          mkDictSource [("k", Value.int 3)]] =
      .ok [("k", Value.int 3)]
    ∧ dget? [("k", Value.int 2)] "k" = some (Value.int 2)
    ∧ dget? [("k", Value.int 3)] "k" ≠ some (Value.int 2) :=
  ⟨rfl, rfl, by decide⟩

/-- Claim C8, amended: if the key appears in an earlier source Si and in Sj
with i < j, and no source after Sj binds the key, then the merged value
before overrides and transformers is Sj's value for it (the latest source
containing the key wins). -/
theorem claim8_later_wins (fs : FS) (base : Config) (ss1 : List Source) (sj : Source)
    (ss2 : List Source) (r mj : Config) (vj : Value) (k : String)
    (hall : applySources fs base (ss1 ++ sj :: ss2) = .ok r)
    (hcj : sourceContribution fs sj = .ok mj)
    (hnd : (mj.map Prod.fst).Nodup)
    (hkj : dget? mj k = some vj)
    (hi : ∃ si ∈ ss1, ∃ mi, sourceContribution fs si = .ok mi ∧ k ∈ mi.map Prod.fst)
    (hlast : ∀ sl ∈ ss2, ∀ ml, sourceContribution fs sl = .ok ml → k ∉ ml.map Prod.fst) :
    dget? r k = some vj := by
  rw [applySources_append] at hall
  cases hs1 : applySources fs base ss1 with
  | error e =>
    rw [hs1] at hall
    simp at hall
  | ok r1 =>
    rw [hs1] at hall
    dsimp only at hall
    have hall2 : applySources fs (dictUpdate r1 mj) ss2 = .ok r := by
      simp only [applySources] at hall
      rw [hcj] at hall
      exact hall
    have hpres := applySources_dget_preserved fs k ss2 (dictUpdate r1 mj) r hlast hall2
    rw [hpres, dget_dictUpdate, dgetLast_eq_dget_of_nodup mj k hnd, hkj]

/-- Claim C8, witness: sources `a=4` then `a=5`; the merged pre-override
value of `a` is the later source's 5. -/
theorem claim8_witness :
    dget? [("a", Value.int 5)] "a" = some (Value.int 5) :=
  claim8_later_wins fsEmpty [] [mkDictSource [("a", Value.int 4)]]
    (mkDictSource [("a", Value.int 5)]) [] [("a", Value.int 5)] [("a", Value.int 5)]
    (Value.int 5) "a" rfl rfl (by decide) rfl
    ⟨mkDictSource [("a", Value.int 4)], by simp, [("a", Value.int 4)], rfl, by decide⟩
    (fun sl hsl => absurd hsl (List.not_mem_nil sl))

/-- Claim C9: every error `parse` raises is the single runtime exception
shape `valueError` — there is no dedicated exception type for either fatal
condition — and its message is either the unsupported-source text or the
validation-failure text, the only way the two conditions can be told apart. -/
theorem claim9_error_types (p : ConfigurationParser) (fs : FS) (ss : List Source) (ov : Config)
    (e : PyError) (h : (p.parse fs ss ov).2 = .error e) :
    (∃ msg, e = .valueError msg)
    ∧ ((∃ tn, e = .valueError (unsupportedMsg tn)) ∨ ∃ k v, e = .valueError (validationMsg k v)) := by
  rw [parse_snd] at h
  cases hs : applySources fs p.config ss with
  | error e2 =>
    rw [hs] at h
    dsimp only at h
    injection h with h2
    subst h2
    obtain ⟨tn, htn⟩ := applySources_error_shape fs ss p.config e2 hs
    exact ⟨⟨unsupportedMsg tn, htn⟩, Or.inl ⟨tn, htn⟩⟩
  | ok r1 =>
    rw [hs] at h
    dsimp only at h
    cases hv : validateConfig p.validators (applyTransformers p.transformers (dictUpdate r1 ov)) with
    | error e2 =>
      rw [hv] at h
      dsimp only at h
      injection h with h2
      subst h2
      obtain ⟨k, v, hkv⟩ := validateConfig_error_shape _ _ e2 hv
      exact ⟨⟨validationMsg k v, hkv⟩, Or.inr ⟨k, v, hkv⟩⟩
    | ok u =>
      rw [hv] at h
      dsimp only at h
      simp at h

/-- Claim C9, witness: the error raised for an unsupported source is a
`valueError` with the unsupported-source message. -/
theorem claim9_witness :
    (∃ msg, PyError.valueError (unsupportedMsg (mkTypeName "int")) = PyError.valueError msg)
    ∧ ((∃ tn, PyError.valueError (unsupportedMsg (mkTypeName "int")) =
          PyError.valueError (unsupportedMsg tn))
      ∨ ∃ k v, PyError.valueError (unsupportedMsg (mkTypeName "int")) =
          PyError.valueError (validationMsg k v)) :=
  claim9_error_types pPlain fsEmpty [badSource] []
    (PyError.valueError (unsupportedMsg (mkTypeName "int"))) rfl

/-- Claim C10: source dispatch probes the shapes in the fixed order inline
mapping, then string path, then `to_dict`: a source that is an inline mapping
contributes its own entries whatever its `to_dict` would return (the call
result is independent of that field, i.e. `to_dict` is never consulted), and
a string source is loaded as a file path whatever its `to_dict` would return. -/
theorem claim10_dispatch_order (p : ConfigurationParser) (fs : FS) (m : Config)
    (ps2 : Option String) (td : Option Config) (tn : String) (ss : List Source) (ov : Config) :
    (p.parse fs ((⟨some m, ps2, td, tn⟩ : Source) :: ss) ov = p.parse fs (mkDictSource m :: ss) ov)
    ∧ (applySources fs p.config ((⟨some m, ps2, td, tn⟩ : Source) :: ss) =
        applySources fs (dictUpdate p.config m) ss)
    ∧ (∀ path td2, p.parse fs ((⟨none, some path, td, tn⟩ : Source) :: ss) ov =
        p.parse fs ((⟨none, some path, td2, tn⟩ : Source) :: ss) ov)
    ∧ (∀ path, applySources fs p.config ((⟨none, some path, td, tn⟩ : Source) :: ss) =
        applySources fs (dictUpdate p.config (loadFromFile fs path)) ss) :=
  ⟨rfl, rfl, fun _ _ => rfl, fun _ => rfl⟩

end WeekOne
